import Mathlib

/-!
Verification development for the PV business-plan financial modeling engine
(`src/financial_models.py`).

Modelling conventions (shallow embedding):
* Python floats are modelled as exact rationals (`ℚ`).
* A Python numeric value that may be an `int` or a `float` at runtime is
  modelled by `PyNum`; `numpy` rejects `float` array dimensions, which is how
  `project_lifetime_years` can make the model raise a `TypeError` after a
  dynamic field overwrite.
* `float("inf")` (the payback sentinel) is modelled as `none : Option ℚ`.
* Fallible Python code (exceptions) is modelled with `Except String`.
* `npf.irr` is an external iterative root finder; `run_financial_model` is
  parameterised by the function `irrFn` standing for `calculate_irr`, so every
  statement quantifies over the solver's behaviour.
-/

/-- A Python runtime number: either an `int` or a `float`. -/
inductive PyNum where
  | int (n : ℤ)
  | float (q : ℚ)
deriving DecidableEq

/-- Numeric value of a `PyNum` (Python arithmetic treats `5` and `5.0` alike). -/
def PyNum.toRat : PyNum → ℚ
  | .int n => (n : ℚ)
  | .float q => q

/-- `FinancialInputs` dataclass from `financial_models.py`.
`project_lifetime_years` is declared `int` but the dataclass does not enforce
it, so it is carried as a `PyNum`. -/
structure FinancialInputs where
  system_capacity_kw : ℚ
  total_capex : ℚ
  annual_production_kwh : ℚ
  electricity_rate_kwh : ℚ
  opex_annual : ℚ
  escalation_rate : ℚ
  discount_rate : ℚ
  project_lifetime_years : PyNum
  incentives_total : ℚ
  degradation_rate : ℚ
deriving DecidableEq

/-- Round-half-to-even to an integer, as Python's builtin `round` does. -/
def roundHalfEven (q : ℚ) : ℤ :=
  let f := ⌊q⌋
  let frac := q - f
  if frac < 1/2 then f
  else if 1/2 < frac then f + 1
  else if f % 2 = 0 then f else f + 1

/-- Python `round(q, n)` on our exact-rational model of floats. -/
def pyRound (q : ℚ) (n : ℕ) : ℚ :=
  (roundHalfEven (q * 10 ^ n) : ℚ) / 10 ^ n

/-- Running cumulative sums starting from accumulator `acc` (`np.cumsum`). -/
def cumsumFrom (acc : ℚ) : List ℚ → List ℚ
  | [] => []
  | x :: xs => (acc + x) :: cumsumFrom (acc + x) xs

/-- `np.cumsum`: list of prefix sums. -/
def cumsum (l : List ℚ) : List ℚ := cumsumFrom 0 l

/-- Index of the first entry `≥ 0`, if any
(`np.where(cumulative_cash_flow >= 0)[0][0]` guarded by `np.any`). -/
def firstNonnegIdx : List ℚ → Option ℕ
  | [] => none
  | c :: cs => if 0 ≤ c then some 0 else (firstNonnegIdx cs).map (· + 1)

/-- `calculate_npv(cash_flows, discount_rate)`:
`sum(cash_flows[t] / (1 + discount_rate)**t)`. -/
def calculate_npv (cash_flows : List ℚ) (discount_rate : ℚ) : ℚ :=
  (cash_flows.enum.map (fun p => p.2 / (1 + discount_rate) ^ p.1)).sum

/-- `calculate_payback_period(cash_flows)`; `none` models `float("inf")`. -/
def calculate_payback_period (cash_flows : List ℚ) : Option ℚ :=
  let cumulative := cumsum cash_flows
  match firstNonnegIdx cumulative with
  | none => none
  | some idx =>
    if idx = 0 then some 0
    else some ((idx : ℚ) + |cumulative.getD (idx - 1) 0| / cash_flows.getD idx 0)

/-- `calculate_lcoe`; `np.arange(lifetime_years)` is empty for `lifetime_years ≤ 0`. -/
def calculate_lcoe (total_capex opex_annual annual_production_kwh discount_rate : ℚ)
    (lifetime_years : ℤ) (degradation_rate : ℚ) : ℚ :=
  let years := List.range lifetime_years.toNat
  let pv_costs := total_capex +
    (years.map (fun t => opex_annual / (1 + discount_rate) ^ t)).sum
  let pv_production :=
    (years.map (fun t => annual_production_kwh * (1 - degradation_rate) ^ t /
      (1 + discount_rate) ^ t)).sum
  pv_costs / pv_production

/-- The cash-flow array built by `run_financial_model` for an `N`-year lifetime:
index 0 is the net investment, index `year ∈ 1..N` is revenue minus opex. -/
def buildCashFlows (inputs : FinancialInputs) (N : ℕ) : List ℚ :=
  (-(inputs.total_capex - inputs.incentives_total)) ::
    (List.range N).map (fun i =>
      let year := i + 1
      let production :=
        inputs.annual_production_kwh * (1 - inputs.degradation_rate) ^ (year - 1)
      let electricity_rate :=
        inputs.electricity_rate_kwh * (1 + inputs.escalation_rate) ^ (year - 1)
      let revenue := production * electricity_rate
      let opex := inputs.opex_annual * (1 + inputs.escalation_rate) ^ (year - 1)
      revenue - opex)

/-- The result dictionary of `run_financial_model` (fixed keys). -/
structure Metrics where
  npv : ℚ
  irr : ℚ
  payback_period_years : Option ℚ
  lcoe : ℚ
  roi_percentage : ℚ
  annual_savings_year1 : ℚ
  total_lifetime_savings : ℚ
  total_revenue : ℚ
deriving DecidableEq

/-- The metric dictionary computed on the success path of
`run_financial_model` (lifetime = the integer `L ≥ 1`).  The local bindings
mirror the Python locals of lines 142-195 of `financial_models.py`. -/
def modelMetrics (irrFn : List ℚ → ℚ) (inputs : FinancialInputs) (L : ℤ) :
    Metrics :=
  let cash_flows := buildCashFlows inputs L.toNat
  let npv := calculate_npv cash_flows inputs.discount_rate
  let irr := if 0 < npv then irrFn cash_flows else 0
  let payback := calculate_payback_period cash_flows
  let lcoe := calculate_lcoe inputs.total_capex inputs.opex_annual
    inputs.annual_production_kwh inputs.discount_rate L inputs.degradation_rate
  let total_revenue := (cash_flows.drop 1).sum
  let roi := total_revenue / inputs.total_capex * 100
  let year1_savings := cash_flows.getD 1 0
  let lifetime_savings := (cash_flows.drop 1).sum
  { npv := pyRound npv 2
    irr := pyRound (irr * 100) 2
    payback_period_years := payback.map (fun p => pyRound p 2)
    lcoe := pyRound lcoe 4
    roi_percentage := pyRound roi 2
    annual_savings_year1 := pyRound year1_savings 2
    total_lifetime_savings := pyRound lifetime_savings 2
    total_revenue := pyRound total_revenue 2 }

/-- `run_financial_model(inputs)`, parameterised by the IRR solver `irrFn`
standing for `calculate_irr` (= `npf.irr`).  Failure cases, in evaluation
order of the Python source:
* a `float` lifetime: `np.zeros(lifetime + 1)` raises `TypeError`;
* lifetime `≤ -2`: `np.zeros` of a negative size raises `ValueError`;
* lifetime `= -1`: the array is empty and `cash_flows[0] = ...` raises
  `IndexError`;
* lifetime `= 0`: the array has length 1 and `cash_flows[1]` (first-year
  savings) raises `IndexError`. -/
def run_financial_model (irrFn : List ℚ → ℚ) (inputs : FinancialInputs) :
    Except String Metrics :=
  match inputs.project_lifetime_years with
  | .float _ => .error "TypeError: float array dimension"
  | .int L =>
    if L + 1 < 0 then .error "ValueError: negative dimensions are not allowed"
    else if L + 1 = 0 then .error "IndexError: index 0 is out of bounds"
    else if L = 0 then .error "IndexError: index 1 is out of bounds"
    else .ok (modelMetrics irrFn inputs L)

/-- Whether an `Except` result is a success (no Python exception was raised). -/
def exceptIsOk {α : Type} (e : Except String α) : Bool :=
  match e with
  | .ok _ => true
  | .error _ => false

/-- A small concrete input set used to instantiate the theorems: 2-year
lifetime, zero escalation/degradation/discount, capex 2, year-1 net flow 2. -/
def exBase : FinancialInputs :=
  { system_capacity_kw := 1, total_capex := 2, annual_production_kwh := 1,
    electricity_rate_kwh := 3, opex_annual := 1, escalation_rate := 0,
    discount_rate := 0, project_lifetime_years := .int 2,
    incentives_total := 0, degradation_rate := 0 }

/-- `exBase` with a zero-year lifetime (boundary case for model failure). -/
def exZero : FinancialInputs :=
  { exBase with project_lifetime_years := .int 0 }

/-- The declared fields of the `FinancialInputs` dataclass. -/
def declaredFields : List String :=
  ["system_capacity_kw", "total_capex", "annual_production_kwh",
   "electricity_rate_kwh", "opex_annual", "escalation_rate", "discount_rate",
   "project_lifetime_years", "incentives_total", "degradation_rate"]

/-- Whether `name` is a declared field of `FinancialInputs`. -/
def isDeclaredField (name : String) : Bool := declaredFields.contains name

/-- The declared fields that hold a Python `float` (every field except the
`int`-typed `project_lifetime_years`). -/
def floatFields : List String :=
  ["system_capacity_kw", "total_capex", "annual_production_kwh",
   "electricity_rate_kwh", "opex_annual", "escalation_rate", "discount_rate",
   "incentives_total", "degradation_rate"]

/-- `getattr(inputs, name)`: `none` models an `AttributeError`. -/
def getAttr (inp : FinancialInputs) (name : String) : Option ℚ :=
  if name = "system_capacity_kw" then some inp.system_capacity_kw
  else if name = "total_capex" then some inp.total_capex
  else if name = "annual_production_kwh" then some inp.annual_production_kwh
  else if name = "electricity_rate_kwh" then some inp.electricity_rate_kwh
  else if name = "opex_annual" then some inp.opex_annual
  else if name = "escalation_rate" then some inp.escalation_rate
  else if name = "discount_rate" then some inp.discount_rate
  else if name = "project_lifetime_years" then some inp.project_lifetime_years.toRat
  else if name = "incentives_total" then some inp.incentives_total
  else if name = "degradation_rate" then some inp.degradation_rate
  else none

/-- `setattr(inputs, name, value)` on a clone.  An unrecognised `name` adds a
fresh attribute on the (non-slotted) dataclass instance that no later code
reads, so it is observationally the identity. -/
def setAttr (inp : FinancialInputs) (name : String) (value : PyNum) :
    FinancialInputs :=
  if name = "system_capacity_kw" then { inp with system_capacity_kw := value.toRat }
  else if name = "total_capex" then { inp with total_capex := value.toRat }
  else if name = "annual_production_kwh" then
    { inp with annual_production_kwh := value.toRat }
  else if name = "electricity_rate_kwh" then
    { inp with electricity_rate_kwh := value.toRat }
  else if name = "opex_annual" then { inp with opex_annual := value.toRat }
  else if name = "escalation_rate" then { inp with escalation_rate := value.toRat }
  else if name = "discount_rate" then { inp with discount_rate := value.toRat }
  else if name = "project_lifetime_years" then
    { inp with project_lifetime_years := value }
  else if name = "incentives_total" then { inp with incentives_total := value.toRat }
  else if name = "degradation_rate" then { inp with degradation_rate := value.toRat }
  else inp

/-- `np.linspace(start, stop, num)` with the default inclusive endpoint. -/
def linspace (start stop : ℚ) (num : ℕ) : List ℚ :=
  if num = 0 then []
  else if num = 1 then [start]
  else (List.range num).map (fun i : ℕ =>
    start + (stop - start) * (i : ℚ) / ((num : ℚ) - 1))

/-- One row of the sensitivity-analysis DataFrame. -/
structure SensRow where
  parameter_value : ℚ
  multiplier : ℚ
  npv : ℚ
  irr : ℚ
  payback_period : Option ℚ
deriving DecidableEq

/-- `sensitivity_analysis(inputs, parameter, variation_range, num_points)`.
`getattr` on an unrecognised name raises `AttributeError`.  The swept value
`base_value * mult` is a `numpy` float whatever the base field was, hence the
`PyNum.float` write-back: sweeping `project_lifetime_years` makes the model
run fail (`np.zeros` rejects float dimensions). -/
def sensitivity_analysis (irrFn : List ℚ → ℚ) (inputs : FinancialInputs)
    (parameter : String) (variation_range : ℚ × ℚ) (num_points : ℕ) :
    Except String (List SensRow) :=
  match getAttr inputs parameter with
  | none => .error "AttributeError"
  | some base_value =>
    let multipliers := linspace variation_range.1 variation_range.2 num_points
    multipliers.mapM (fun mult => do
      let modified_inputs := setAttr inputs parameter (.float (base_value * mult))
      let metrics ← run_financial_model irrFn modified_inputs
      pure { parameter_value := base_value * mult, multiplier := mult,
             npv := metrics.npv, irr := metrics.irr,
             payback_period := metrics.payback_period_years : SensRow })

/-- One row of the scenario-comparison DataFrame after the final column
selection `["scenario", "npv", "irr", "payback_period_years", "lcoe",
"roi_percentage"]`. -/
structure ScenarioRow where
  scenario : String
  npv : ℚ
  irr : ℚ
  payback_period_years : Option ℚ
  lcoe : ℚ
  roi_percentage : ℚ
deriving DecidableEq

/-- Project a metrics dictionary onto the scenario-comparison columns. -/
def scenarioRowOf (name : String) (m : Metrics) : ScenarioRow :=
  { scenario := name, npv := m.npv, irr := m.irr,
    payback_period_years := m.payback_period_years, lcoe := m.lcoe,
    roi_percentage := m.roi_percentage }

/-- Apply a scenario's field overrides in order (`setattr` loop on a clone). -/
def applyOverrides (inp : FinancialInputs)
    (modifications : List (String × PyNum)) : FinancialInputs :=
  modifications.foldl (fun acc p => setAttr acc p.1 p.2) inp

/-- `scenario_comparison(base_inputs, scenarios)`: the unmodified base case
first, then one row per scenario in iteration order. -/
def scenario_comparison (irrFn : List ℚ → ℚ) (base_inputs : FinancialInputs)
    (scenarios : List (String × List (String × PyNum))) :
    Except String (List ScenarioRow) := do
  let base_metrics ← run_financial_model irrFn base_inputs
  let rows ← scenarios.mapM (fun s => do
    let metrics ← run_financial_model irrFn (applyOverrides base_inputs s.2)
    pure (scenarioRowOf s.1 metrics))
  pure (scenarioRowOf "Base Case" base_metrics :: rows)

/-- Default metrics record, used only as a `getD` fallback in statements. -/
def emptyMetrics : Metrics :=
  { npv := 0, irr := 0, payback_period_years := none, lcoe := 0,
    roi_percentage := 0, annual_savings_year1 := 0,
    total_lifetime_savings := 0, total_revenue := 0 }

/-- Default scenario row, used only as a `getD` fallback in statements. -/
def emptyScenarioRow : ScenarioRow :=
  scenarioRowOf "" emptyMetrics

/-- Default sensitivity row, used only as a `getD` fallback in statements. -/
def emptySensRow : SensRow :=
  { parameter_value := 0, multiplier := 0, npv := 0, irr := 0,
    payback_period := none }

/-- Value of a successful `Except`, with a fallback for the error case. -/
def exceptOkD {α : Type} (e : Except String α) (d : α) : α :=
  match e with
  | .ok a => a
  | .error _ => d

section Helpers

/-- Discounted tail sum of a cash-flow list whose first element sits at
time index `t` (recursive presentation of `calculate_npv`). -/
def npvAux (r : ℚ) : ℕ → List ℚ → ℚ
  | _, [] => 0
  | t, c :: cs => c / (1 + r) ^ t + npvAux r (t + 1) cs

theorem enumFrom_npv_sum (r : ℚ) (l : List ℚ) :
    ∀ t, ((List.enumFrom t l).map (fun p => p.2 / (1 + r) ^ p.1)).sum =
      npvAux r t l := by
  induction l with
  | nil => intro t; simp [npvAux]
  | cons c cs ih => intro t; simp [npvAux, List.enumFrom, ih (t + 1)]

theorem calculate_npv_eq_npvAux (l : List ℚ) (r : ℚ) :
    calculate_npv l r = npvAux r 0 l := by
  unfold calculate_npv
  rw [show l.enum = List.enumFrom 0 l from rfl, enumFrom_npv_sum]

theorem sum_map_range_eq_finset (f : ℕ → ℚ) (n : ℕ) :
    ((List.range n).map f).sum = ∑ t ∈ Finset.range n, f t := by
  induction n with
  | zero => simp
  | succ n ih =>
    rw [List.range_succ, List.map_append, List.sum_append,
      Finset.sum_range_succ, ih]
    simp

theorem cumsumFrom_length (acc : ℚ) (l : List ℚ) :
    (cumsumFrom acc l).length = l.length := by
  induction l generalizing acc with
  | nil => rfl
  | cons x xs ih => simp [cumsumFrom, ih]

theorem cumsum_length (l : List ℚ) : (cumsum l).length = l.length :=
  cumsumFrom_length 0 l

theorem cumsumFrom_getD (l : List ℚ) :
    ∀ (acc : ℚ) (i : ℕ), i < l.length →
      (cumsumFrom acc l).getD i 0 = acc + (l.take (i + 1)).sum := by
  induction l with
  | nil => intro acc i h; simp at h
  | cons x xs ih =>
    intro acc i h
    match i with
    | 0 => simp [cumsumFrom]
    | j + 1 =>
      have hj : j < xs.length := by simpa using h
      simp only [cumsumFrom, List.getD_cons_succ]
      rw [List.take_succ_cons, List.sum_cons, ih (acc + x) j hj]
      ring

theorem cumsum_getD (l : List ℚ) (i : ℕ) (h : i < l.length) :
    (cumsum l).getD i 0 = (l.take (i + 1)).sum := by
  rw [cumsum, cumsumFrom_getD l 0 i h, zero_add]

theorem take_succ_sum (l : List ℚ) (i : ℕ) (h : i < l.length) :
    (l.take (i + 1)).sum = (l.take i).sum + l.getD i 0 := by
  rw [List.take_succ, List.sum_append, List.getD_eq_getElem?_getD,
    List.getElem?_eq_getElem h]
  simp

theorem firstNonnegIdx_eq_none_iff (l : List ℚ) :
    firstNonnegIdx l = none ↔ ∀ c ∈ l, c < 0 := by
  induction l with
  | nil => simp [firstNonnegIdx]
  | cons x xs ih =>
    simp only [firstNonnegIdx, List.mem_cons]
    by_cases hx : 0 ≤ x
    · simp [hx]
    · simp only [if_neg hx, Option.map_eq_none', ih]
      constructor
      · intro h c hc
        rcases hc with rfl | hc
        · exact lt_of_not_le hx
        · exact h c hc
      · intro h c hc
        exact h c (Or.inr hc)

theorem firstNonnegIdx_spec (l : List ℚ) :
    ∀ i, firstNonnegIdx l = some i →
      i < l.length ∧ 0 ≤ l.getD i 0 ∧ ∀ j < i, l.getD j 0 < 0 := by
  induction l with
  | nil => intro i h; simp [firstNonnegIdx] at h
  | cons x xs ih =>
    intro i h
    simp only [firstNonnegIdx] at h
    by_cases hx : 0 ≤ x
    · rw [if_pos hx] at h
      cases h
      exact ⟨by simp, by simpa using hx, by omega⟩
    · rw [if_neg hx] at h
      rcases Option.map_eq_some'.mp h with ⟨j, hj, rfl⟩
      obtain ⟨hlen, hge, hlt⟩ := ih j hj
      refine ⟨by simpa using hlen, by simpa using hge, ?_⟩
      intro k hk
      match k with
      | 0 => simpa using lt_of_not_le hx
      | k + 1 =>
        rw [List.getD_cons_succ]
        exact hlt k (by omega)

theorem firstNonnegIdx_of_spec (l : List ℚ) :
    ∀ i, i < l.length → 0 ≤ l.getD i 0 → (∀ j < i, l.getD j 0 < 0) →
      firstNonnegIdx l = some i := by
  induction l with
  | nil => intro i h; simp at h
  | cons x xs ih =>
    intro i hlen hge hlt
    simp only [firstNonnegIdx]
    match i with
    | 0 =>
      rw [if_pos (by simpa using hge)]
    | j + 1 =>
      have hx : ¬ 0 ≤ x := by
        have := hlt 0 (by omega)
        simpa using not_le.mpr this
      rw [if_neg hx, ih j (by simpa using hlen) (by simpa using hge)
        (fun k hk => by simpa using hlt (k + 1) (by omega))]
      rfl

/-- The crossing-year cash flow is the difference of adjacent cumulative sums,
hence strictly positive at the first non-negative cumulative index. -/
theorem crossing_flow_pos (cf : List ℚ) (idx : ℕ) (h0 : 0 < idx)
    (hfind : firstNonnegIdx (cumsum cf) = some idx) :
    (cumsum cf).getD (idx - 1) 0 < 0 ∧ 0 < cf.getD idx 0 := by
  obtain ⟨hlen, hge, hlt⟩ := firstNonnegIdx_spec (cumsum cf) idx hfind
  rw [cumsum_length] at hlen
  have hprev : (cumsum cf).getD (idx - 1) 0 < 0 := hlt (idx - 1) (by omega)
  refine ⟨hprev, ?_⟩
  obtain ⟨j, rfl⟩ : ∃ j, idx = j + 1 := ⟨idx - 1, by omega⟩
  rw [cumsum_getD cf (j + 1) hlen] at hge
  rw [Nat.add_sub_cancel, cumsum_getD cf j (by omega)] at hprev
  have hstep := take_succ_sum cf (j + 1) hlen
  linarith [hstep, hge, hprev]

end Helpers

/-- C2: `calculate_payback_period` returns the infinity sentinel exactly when
no cumulative sum is non-negative, returns `0.0` iff the year-0 flow is
non-negative, and otherwise returns `idx + |cumulative[idx-1]| /
cash_flows[idx]` at the first index `idx` whose cumulative sum is
non-negative. -/
theorem C2_payback_period (cf : List ℚ) (hne : cf ≠ []) :
    ((∀ c ∈ cumsum cf, c < 0) → calculate_payback_period cf = none) ∧
    (calculate_payback_period cf = some 0 ↔ 0 ≤ cf.getD 0 0) ∧
    ∀ idx, 0 < idx → idx < cf.length → 0 ≤ (cumsum cf).getD idx 0 →
      (∀ j < idx, (cumsum cf).getD j 0 < 0) →
      calculate_payback_period cf =
        some ((idx : ℚ) + |(cumsum cf).getD (idx - 1) 0| / cf.getD idx 0) := by
  obtain ⟨c0, rest, rfl⟩ : ∃ c0 rest, cf = c0 :: rest := by
    cases cf with
    | nil => exact absurd rfl hne
    | cons a l => exact ⟨a, l, rfl⟩
  refine ⟨?_, ?_, ?_⟩
  · intro hall
    simp only [calculate_payback_period, (firstNonnegIdx_eq_none_iff _).mpr hall]
  · constructor
    · intro hres
      rcases hcase : firstNonnegIdx (cumsum (c0 :: rest)) with _ | idx
      · simp only [calculate_payback_period, hcase] at hres
        exact Option.noConfusion hres
      · rcases Nat.eq_zero_or_pos idx with rfl | hpos
        · obtain ⟨_, hge, _⟩ := firstNonnegIdx_spec _ 0 hcase
          rw [cumsum_getD _ 0 (by simp)] at hge
          simpa using hge
        · obtain ⟨hprev, hcurr⟩ := crossing_flow_pos (c0 :: rest) idx hpos hcase
          simp only [calculate_payback_period, hcase,
            if_neg (Nat.pos_iff_ne_zero.mp hpos), Option.some.injEq] at hres
          have habs : 0 < |(cumsum (c0 :: rest)).getD (idx - 1) 0| :=
            abs_pos.mpr (ne_of_lt hprev)
          have hfrac : 0 < |(cumsum (c0 :: rest)).getD (idx - 1) 0| /
              (c0 :: rest).getD idx 0 := div_pos habs hcurr
          have hgt : (0 : ℚ) < idx + |(cumsum (c0 :: rest)).getD (idx - 1) 0| /
              (c0 :: rest).getD idx 0 := by positivity
          rw [hres] at hgt
          exact absurd hgt (lt_irrefl 0)
    · intro h0
      have hfind : firstNonnegIdx (cumsum (c0 :: rest)) = some 0 := by
        apply firstNonnegIdx_of_spec
        · rw [cumsum_length]; simp
        · rw [cumsum_getD _ 0 (by simp)]; simpa using h0
        · omega
      simp [calculate_payback_period, hfind]
  · intro idx hpos hlen hge hlt
    have hfind : firstNonnegIdx (cumsum (c0 :: rest)) = some idx := by
      apply firstNonnegIdx_of_spec
      · rw [cumsum_length]; exact hlen
      · exact hge
      · exact hlt
    simp only [calculate_payback_period, hfind,
      if_neg (Nat.pos_iff_ne_zero.mp hpos)]

/-- Witness for C2 at the concrete cash flows `[-2, 2, 2]`. -/
theorem C2_payback_period_witness :
    ((∀ c ∈ cumsum [(-2 : ℚ), 2, 2], c < 0) →
      calculate_payback_period [(-2 : ℚ), 2, 2] = none) ∧
    (calculate_payback_period [(-2 : ℚ), 2, 2] = some 0 ↔
      0 ≤ [(-2 : ℚ), 2, 2].getD 0 0) ∧
    ∀ idx, 0 < idx → idx < [(-2 : ℚ), 2, 2].length →
      0 ≤ (cumsum [(-2 : ℚ), 2, 2]).getD idx 0 →
      (∀ j < idx, (cumsum [(-2 : ℚ), 2, 2]).getD j 0 < 0) →
      calculate_payback_period [(-2 : ℚ), 2, 2] =
        some ((idx : ℚ) + |(cumsum [(-2 : ℚ), 2, 2]).getD (idx - 1) 0| /
          [(-2 : ℚ), 2, 2].getD idx 0) :=
  C2_payback_period [(-2 : ℚ), 2, 2] (by decide)

/-- C9: whenever the interpolation branch is reached (first non-negative
cumulative index is positive), the divisor `cash_flows[idx]` is strictly
positive, so the division is safe and the payback is finite and exceeds
`idx - 1`. -/
theorem C9_interpolation_divisor_pos (cf : List ℚ) (idx : ℕ)
    (hfind : firstNonnegIdx (cumsum cf) = some idx) (hpos : 0 < idx) :
    0 < cf.getD idx 0 ∧
    ∃ p, calculate_payback_period cf = some p ∧ (idx : ℚ) - 1 < p := by
  obtain ⟨hprev, hcurr⟩ := crossing_flow_pos cf idx hpos hfind
  refine ⟨hcurr, (idx : ℚ) + |(cumsum cf).getD (idx - 1) 0| / cf.getD idx 0, ?_, ?_⟩
  · simp only [calculate_payback_period, hfind,
      if_neg (Nat.pos_iff_ne_zero.mp hpos)]
  · have habs : 0 < |(cumsum cf).getD (idx - 1) 0| := abs_pos.mpr (ne_of_lt hprev)
    have hfrac : 0 < |(cumsum cf).getD (idx - 1) 0| / cf.getD idx 0 :=
      div_pos habs hcurr
    linarith

/-- Witness for C9 at the concrete cash flows `[-2, 1, 3]`, crossing at
index 2. -/
theorem C9_interpolation_divisor_pos_witness :
    0 < [(-2 : ℚ), 1, 3].getD 2 0 ∧
    ∃ p, calculate_payback_period [(-2 : ℚ), 1, 3] = some p ∧
      ((2 : ℕ) : ℚ) - 1 < p :=
  C9_interpolation_divisor_pos [(-2 : ℚ), 1, 3] 2
    (by norm_num [firstNonnegIdx, cumsum, cumsumFrom]) (by decide)

/-- C1: for a lifetime of `N ≥ 1` years, the cash-flow sequence built by
`run_financial_model` has length `N + 1`; index 0 is the negated net capital
cost and index `k ∈ 1..N` is first-year production decayed by
`(1 - degradation_rate)^(k-1)` times the escalated electricity rate, minus the
escalated opex, both escalations using exponent `k - 1`. -/
theorem C1_cash_flow_series (inputs : FinancialInputs) (N : ℕ) (hN : 1 ≤ N) :
    (buildCashFlows inputs N).length = N + 1 ∧
    (buildCashFlows inputs N).getD 0 0 =
      -(inputs.total_capex - inputs.incentives_total) ∧
    ∀ k, 1 ≤ k → k ≤ N →
      (buildCashFlows inputs N).getD k 0 =
        inputs.annual_production_kwh * (1 - inputs.degradation_rate) ^ (k - 1) *
            inputs.electricity_rate_kwh * (1 + inputs.escalation_rate) ^ (k - 1) -
          inputs.opex_annual * (1 + inputs.escalation_rate) ^ (k - 1) := by
  refine ⟨by simp [buildCashFlows], rfl, ?_⟩
  intro k hk1 hkN
  obtain ⟨j, rfl⟩ : ∃ j, k = j + 1 := ⟨k - 1, (Nat.succ_pred_eq_of_pos hk1).symm⟩
  have hj : j < N := by omega
  unfold buildCashFlows
  rw [List.getD_cons_succ, List.getD_eq_getElem?_getD, List.getElem?_map,
    List.getElem?_range hj]
  simp only [Option.map_some', Option.getD_some, Nat.add_sub_cancel]
  ring

/-- Witness for C1 at a concrete two-year input. -/
theorem C1_cash_flow_series_witness :
    (buildCashFlows exBase 2).length = 2 + 1 ∧
    (buildCashFlows exBase 2).getD 0 0 =
      -(exBase.total_capex - exBase.incentives_total) ∧
    ∀ k, 1 ≤ k → k ≤ 2 →
      (buildCashFlows exBase 2).getD k 0 =
        exBase.annual_production_kwh * (1 - exBase.degradation_rate) ^ (k - 1) *
            exBase.electricity_rate_kwh * (1 + exBase.escalation_rate) ^ (k - 1) -
          exBase.opex_annual * (1 + exBase.escalation_rate) ^ (k - 1) :=
  C1_cash_flow_series exBase 2 (by decide)

/-- C6: `calculate_lcoe` equals the ratio of the discounted cost sum (capex
plus discounted opex) to the discounted degraded production sum, with the
year index running over `t = 0 .. L-1` (0-based, unlike the cash-flow
builder). -/
theorem C6_lcoe_formula (total_capex opex_annual annual_production_kwh
    discount_rate : ℚ) (L : ℤ) (degradation_rate : ℚ) (hL : 1 ≤ L) :
    calculate_lcoe total_capex opex_annual annual_production_kwh discount_rate
        L degradation_rate =
      (total_capex +
          ∑ t ∈ Finset.range L.toNat, opex_annual / (1 + discount_rate) ^ t) /
        ∑ t ∈ Finset.range L.toNat,
          annual_production_kwh * (1 - degradation_rate) ^ t /
            (1 + discount_rate) ^ t := by
  simp only [calculate_lcoe]
  rw [sum_map_range_eq_finset, sum_map_range_eq_finset]

/-- Witness for C6 at concrete arguments. -/
theorem C6_lcoe_formula_witness :
    calculate_lcoe 2 1 1 0 2 0 =
      (2 + ∑ t ∈ Finset.range (2 : ℤ).toNat, 1 / (1 + 0) ^ t) /
        ∑ t ∈ Finset.range (2 : ℤ).toNat,
          1 * (1 - 0) ^ t / (1 + 0) ^ t :=
  C6_lcoe_formula 2 1 1 0 2 0 (by decide)

theorem pyRound_of_zero (n : ℕ) : pyRound 0 n = 0 := by
  norm_num [pyRound, roundHalfEven]

/-- The model run succeeds exactly for an integer lifetime of at least one
year (shared helper). -/
theorem run_ok_iff (irrFn : List ℚ → ℚ) (inputs : FinancialInputs) (L : ℤ)
    (hL : inputs.project_lifetime_years = .int L) :
    exceptIsOk (run_financial_model irrFn inputs) = true ↔ 1 ≤ L := by
  simp only [run_financial_model, hL]
  split_ifs with h1 h2 h3
  · exact ⟨fun hh => Bool.noConfusion hh, fun hh => absurd h1 (by omega)⟩
  · exact ⟨fun hh => Bool.noConfusion hh, fun hh => absurd h2 (by omega)⟩
  · exact ⟨fun hh => Bool.noConfusion hh, fun hh => absurd h3 (by omega)⟩
  · exact ⟨fun hh => by omega, fun hh => rfl⟩

/-- C3: for a valid integer lifetime, the model reports
`round(100 * irr, 2)` where the IRR solver's value is used only when the NPV
is strictly positive; when `npv ≤ 0` the reported irr is exactly `0.0` and the
solver is never consulted (the result is independent of it). -/
theorem C3_irr_guard (irrFn : List ℚ → ℚ) (inputs : FinancialInputs) (L : ℤ)
    (hL : inputs.project_lifetime_years = .int L) (h1 : 1 ≤ L) :
    ∃ m, run_financial_model irrFn inputs = .ok m ∧
      m.irr = pyRound ((if 0 < calculate_npv (buildCashFlows inputs L.toNat)
            inputs.discount_rate then
          irrFn (buildCashFlows inputs L.toNat) else 0) * 100) 2 ∧
      (calculate_npv (buildCashFlows inputs L.toNat) inputs.discount_rate ≤ 0 →
        m.irr = 0 ∧
        ∀ g, run_financial_model g inputs = run_financial_model irrFn inputs) := by
  have hform : ∀ f : List ℚ → ℚ,
      run_financial_model f inputs = .ok (modelMetrics f inputs L) := by
    intro f
    simp only [run_financial_model, hL]
    rw [if_neg (by omega : ¬ L + 1 < 0), if_neg (by omega : ¬ L + 1 = 0),
      if_neg (by omega : ¬ L = 0)]
  have hirr : ∀ f : List ℚ → ℚ, (modelMetrics f inputs L).irr =
      pyRound ((if 0 < calculate_npv (buildCashFlows inputs L.toNat)
          inputs.discount_rate then
        f (buildCashFlows inputs L.toNat) else 0) * 100) 2 := fun f => rfl
  refine ⟨modelMetrics irrFn inputs L, hform irrFn, hirr irrFn, ?_⟩
  intro hnpv
  constructor
  · rw [hirr irrFn, if_neg (not_lt.mpr hnpv)]
    simpa using pyRound_of_zero 2
  · intro g
    rw [hform g, hform irrFn]
    have hmm : modelMetrics g inputs L = modelMetrics irrFn inputs L := by
      simp only [modelMetrics, if_neg (not_lt.mpr hnpv)]
    rw [hmm]

/-- Witness for C3 at the concrete input `exBase`. -/
theorem C3_irr_guard_witness :
    ∃ m, run_financial_model (fun _ => 1/10) exBase = .ok m ∧
      m.irr = pyRound ((if 0 < calculate_npv (buildCashFlows exBase
            (2 : ℤ).toNat) exBase.discount_rate then
          (fun _ => (1 : ℚ)/10) (buildCashFlows exBase (2 : ℤ).toNat)
        else 0) * 100) 2 ∧
      (calculate_npv (buildCashFlows exBase (2 : ℤ).toNat)
          exBase.discount_rate ≤ 0 →
        m.irr = 0 ∧
        ∀ g, run_financial_model g exBase =
          run_financial_model (fun _ => 1/10) exBase) :=
  C3_irr_guard (fun _ => 1/10) exBase 2 rfl (by decide)

/-- C5 counterexample: at a lifetime of exactly `0` — not `< 0` — the model
still fails (reading the year-1 cash flow raises `IndexError`), refuting
"fails only when `project_lifetime_years < 0`". -/
theorem C5_counterexample :
    exceptIsOk (run_financial_model (fun _ => 0) exZero) = false ∧
    exZero.project_lifetime_years = PyNum.int 0 :=
  ⟨rfl, rfl⟩

/-- C5 (amended): with an integer lifetime `L`, `run_financial_model` raises
synchronously (never clamps) for every `L ≤ 0` and succeeds exactly when
`L ≥ 1`: the failure condition is `L ≤ 0`, not `L < 0`. -/
theorem C5_fail_iff_nonpositive (irrFn : List ℚ → ℚ)
    (inputs : FinancialInputs) (L : ℤ)
    (hL : inputs.project_lifetime_years = .int L) :
    (exceptIsOk (run_financial_model irrFn inputs) = false ↔ L ≤ 0) ∧
    (exceptIsOk (run_financial_model irrFn inputs) = true ↔ 1 ≤ L) := by
  have h := run_ok_iff irrFn inputs L hL
  refine ⟨⟨?_, ?_⟩, h⟩
  · intro hfalse
    by_contra hpos
    have htrue : exceptIsOk (run_financial_model irrFn inputs) = true :=
      h.mpr (by omega)
    rw [htrue] at hfalse
    exact Bool.noConfusion hfalse
  · intro hle
    rcases Bool.eq_false_or_eq_true
        (exceptIsOk (run_financial_model irrFn inputs)) with hb | hb
    · exact absurd (h.mp hb) (by omega)
    · exact hb

/-- Witness for C5's amended theorem at the concrete input `exBase`. -/
theorem C5_fail_iff_nonpositive_witness :
    (exceptIsOk (run_financial_model (fun _ => 0) exBase) = false ↔
      (2 : ℤ) ≤ 0) ∧
    (exceptIsOk (run_financial_model (fun _ => 0) exBase) = true ↔
      1 ≤ (2 : ℤ)) :=
  C5_fail_iff_nonpositive (fun _ => 0) exBase 2 rfl

/-- Discounted sums over a non-negative list are antitone in the rate when
every term is discounted at least once (start index `t ≥ 1`). -/
theorem npvAux_anti (r1 r2 : ℚ) (hr1 : -1 < r1) (hr12 : r1 < r2) :
    ∀ (l : List ℚ) (t : ℕ), 1 ≤ t → (∀ x ∈ l, 0 ≤ x) →
      npvAux r2 t l ≤ npvAux r1 t l := by
  intro l
  induction l with
  | nil => intro t _ _; simp [npvAux]
  | cons x xs ih =>
    intro t ht hx
    simp only [npvAux]
    have hx0 : 0 ≤ x := hx x (List.mem_cons_self x xs)
    have hb : (0 : ℚ) < (1 + r1) ^ t := pow_pos (by linarith) t
    have hbc : (1 + r1) ^ t ≤ (1 + r2) ^ t :=
      pow_le_pow_left (by linarith) (by linarith) t
    have hterm : x / (1 + r2) ^ t ≤ x / (1 + r1) ^ t :=
      div_le_div_of_nonneg_left hx0 hb hbc
    have htail := ih (t + 1) (by omega)
      (fun y hy => hx y (List.mem_cons_of_mem x hy))
    linarith

/-- Strict version of `npvAux_anti` when the list has positive sum. -/
theorem npvAux_anti_strict (r1 r2 : ℚ) (hr1 : -1 < r1) (hr12 : r1 < r2) :
    ∀ (l : List ℚ) (t : ℕ), 1 ≤ t → (∀ x ∈ l, 0 ≤ x) → 0 < l.sum →
      npvAux r2 t l < npvAux r1 t l := by
  intro l
  induction l with
  | nil => intro t _ _ hsum; simp at hsum
  | cons x xs ih =>
    intro t ht hx hsum
    simp only [npvAux]
    have hx0 : 0 ≤ x := hx x (List.mem_cons_self x xs)
    have hb : (0 : ℚ) < (1 + r1) ^ t := pow_pos (by linarith) t
    have htail := npvAux_anti r1 r2 hr1 hr12 xs (t + 1) (by omega)
      (fun y hy => hx y (List.mem_cons_of_mem x hy))
    rcases lt_or_eq_of_le hx0 with hxpos | hxzero
    · have hbc : (1 + r1) ^ t < (1 + r2) ^ t :=
        pow_lt_pow_left (by linarith) (by linarith) (by omega)
      have hterm : x / (1 + r2) ^ t < x / (1 + r1) ^ t :=
        div_lt_div_of_pos_left hxpos hb hbc
      linarith
    · have hxs : 0 < xs.sum := by
        simp only [List.sum_cons] at hsum
        rw [← hxzero] at hsum
        linarith
      have hstrict := ih (t + 1) (by omega)
        (fun y hy => hx y (List.mem_cons_of_mem x hy)) hxs
      rw [← hxzero]
      simp only [zero_div]
      linarith

/-- C4 counterexample: the claim fails as stated.  First instance: with
`cf = [-1, -10, 11]` (which satisfies `cf[0] < 0` and `sum(cf[1:]) > 0`) the
NPV at rate 2 is `-28/9`, strictly below the NPV `-20/11` at the larger rate
10, so npv is not strictly decreasing.  Second instance: with the
non-negative-tail sequence `cf = [-1, 2]`, rates `-3 < 0` inside the spec's
stated domain (any rate ≠ -1) give `npv(-3) = -2 < 1 = npv(0)`, so the
restriction to rates above `-1` is also forced. -/
theorem C4_counterexample :
    ([(-1 : ℚ), -10, 11].getD 0 0 < 0 ∧ 0 < [(-1 : ℚ), -10, 11].tail.sum ∧
      (2 : ℚ) < 10 ∧
      calculate_npv [(-1 : ℚ), -10, 11] 2 <
        calculate_npv [(-1 : ℚ), -10, 11] 10) ∧
    ([(-1 : ℚ), 2].getD 0 0 < 0 ∧ (∀ x ∈ [(-1 : ℚ), 2].tail, 0 ≤ x) ∧
      0 < [(-1 : ℚ), 2].tail.sum ∧ (-3 : ℚ) < 0 ∧
      calculate_npv [(-1 : ℚ), 2] (-3) < calculate_npv [(-1 : ℚ), 2] 0) := by
  refine ⟨⟨by norm_num, by norm_num, by norm_num, ?_⟩,
    by norm_num, ?_, by norm_num, by norm_num, ?_⟩ <;>
    norm_num [calculate_npv, List.enum, List.enumFrom]

/-- C4 (amended): the NPV is strictly decreasing in the rate on the domain
`r > -1`, for cash flows with `cf[0] < 0`, a non-negative tail, and
`sum(cf[1:]) > 0` (the code's intended investment shape; the unrestricted
claim is refuted by `C4_counterexample`). -/
theorem C4_npv_strict_antitone (cf : List ℚ) (r1 r2 : ℚ)
    (h0 : cf.getD 0 0 < 0) (htail : ∀ x ∈ cf.tail, 0 ≤ x)
    (hsum : 0 < cf.tail.sum) (hr1 : -1 < r1) (hr12 : r1 < r2) :
    calculate_npv cf r2 < calculate_npv cf r1 := by
  cases cf with
  | nil => simp at hsum
  | cons c0 rest =>
    rw [calculate_npv_eq_npvAux, calculate_npv_eq_npvAux]
    simp only [npvAux, pow_zero, div_one]
    simp only [List.tail_cons] at htail hsum
    have := npvAux_anti_strict r1 r2 hr1 hr12 rest 1 le_rfl htail hsum
    linarith

/-- Witness for C4's amended theorem at `cf = [-2, 2, 2]`, rates 0 < 1. -/
theorem C4_npv_strict_antitone_witness :
    calculate_npv [(-2 : ℚ), 2, 2] 1 < calculate_npv [(-2 : ℚ), 2, 2] 0 :=
  C4_npv_strict_antitone [(-2 : ℚ), 2, 2] 0 1 (by norm_num)
    (by norm_num) (by norm_num) (by norm_num) (by norm_num)

theorem exceptMapM_ok {α β : Type} (f : α → Except String β) (g : α → β) :
    ∀ l : List α, (∀ x ∈ l, f x = .ok (g x)) →
      l.mapM f = Except.ok (l.map g) := by
  intro l
  induction l with
  | nil => intro _; rw [List.mapM_nil]; rfl
  | cons x xs ih =>
    intro h
    rw [List.mapM_cons, h x (List.mem_cons_self x xs),
      ih (fun y hy => h y (List.mem_cons_of_mem x hy))]
    rfl

theorem exceptMapM_ok_inv {α β : Type} (dA : α) (dB : β)
    (f : α → Except String β) :
    ∀ (l : List α) (rows : List β), l.mapM f = .ok rows →
      rows.length = l.length ∧
      ∀ i, i < l.length →
        ∃ b, f (l.getD i dA) = Except.ok b ∧ rows.getD i dB = b := by
  intro l
  induction l with
  | nil =>
    intro rows h
    rw [List.mapM_nil] at h
    cases (show Except.ok ([] : List β) = Except.ok rows from h)
    exact ⟨rfl, fun i hi => absurd hi (by simp)⟩
  | cons x xs ih =>
    intro rows h
    rw [List.mapM_cons] at h
    cases hfx : f x with
    | error e =>
      rw [hfx] at h
      exact Except.noConfusion (show Except.error e = Except.ok rows from h)
    | ok b =>
      rw [hfx] at h
      cases hxs : xs.mapM f with
      | error e =>
        rw [hxs] at h
        exact Except.noConfusion (show Except.error e = Except.ok rows from h)
      | ok bs =>
        rw [hxs] at h
        cases (show Except.ok (b :: bs) = Except.ok rows from h)
        obtain ⟨hlen, hidx⟩ := ih bs hxs
        refine ⟨by simp [hlen], ?_⟩
        intro i hi
        match i with
        | 0 => exact ⟨b, by simpa using hfx, rfl⟩
        | j + 1 =>
          have hj : j < xs.length := by simpa using hi
          obtain ⟨bb, hb1, hb2⟩ := hidx j hj
          exact ⟨bb, hb1, hb2⟩

theorem getD_map_of_lt {α β : Type} (g : α → β) (dA : α) (dB : β)
    (l : List α) (i : ℕ) (hi : i < l.length) :
    (l.map g).getD i dB = g (l.getD i dA) := by
  rw [List.getD_eq_getElem?_getD, List.getElem?_map,
    List.getElem?_eq_getElem hi, List.getD_eq_getElem?_getD,
    List.getElem?_eq_getElem hi]
  rfl

theorem getD_mem_of_lt {α : Type} (l : List α) (i : ℕ) (d : α)
    (hi : i < l.length) : l.getD i d ∈ l := by
  rw [List.getD_eq_getElem?_getD, List.getElem?_eq_getElem hi]
  exact List.getElem_mem hi

/-- Writing to an attribute that is not a declared field leaves the value
object unchanged (the fresh attribute is never read). -/
theorem setAttr_unknown (inp : FinancialInputs) (p : String) (v : PyNum)
    (h : isDeclaredField p = false) : setAttr inp p v = inp := by
  have hmem : p ∉ declaredFields := by simpa [isDeclaredField] using h
  simp only [declaredFields, List.mem_cons, List.not_mem_nil, or_false,
    not_or] at hmem
  obtain ⟨n1, n2, n3, n4, n5, n6, n7, n8, n9, n10⟩ := hmem
  rw [setAttr, if_neg n1, if_neg n2, if_neg n3, if_neg n4, if_neg n5,
    if_neg n6, if_neg n7, if_neg n8, if_neg n9, if_neg n10]

/-- Applying only unrecognised overrides leaves the value object unchanged. -/
theorem applyOverrides_unknown (base : FinancialInputs) :
    ∀ mods : List (String × PyNum),
      (∀ pv ∈ mods, isDeclaredField pv.1 = false) →
      applyOverrides base mods = base := by
  intro mods
  induction mods generalizing base with
  | nil => intro _; rfl
  | cons pv rest ih =>
    intro h
    show applyOverrides (setAttr base pv.1 pv.2) rest = base
    rw [setAttr_unknown base pv.1 pv.2 (h pv (List.mem_cons_self pv rest))]
    exact ih base (fun q hq => h q (List.mem_cons_of_mem pv hq))

/-- The model run unfolds to the explicit metrics record on valid input. -/
theorem run_ok_form (irrFn : List ℚ → ℚ) (inputs : FinancialInputs) (L : ℤ)
    (hL : inputs.project_lifetime_years = .int L) (h1 : 1 ≤ L) :
    run_financial_model irrFn inputs = .ok (modelMetrics irrFn inputs L) := by
  simp only [run_financial_model, hL]
  rw [if_neg (by omega : ¬ L + 1 < 0), if_neg (by omega : ¬ L + 1 = 0),
    if_neg (by omega : ¬ L = 0)]

/-- C7: whenever every model run involved succeeds, `scenario_comparison`
returns the base-case row first — labelled "Base Case" and exactly equal to
`run_financial_model(base)` — followed by one row per scenario in the
caller's iteration order, each computed from the base inputs with only that
scenario's overrides applied, projected onto the columns
{scenario, npv, irr, payback_period_years, lcoe, roi_percentage}. -/
theorem C7_scenario_comparison (irrFn : List ℚ → ℚ) (base : FinancialInputs)
    (scenarios : List (String × List (String × PyNum)))
    (hbase : exceptIsOk (run_financial_model irrFn base) = true)
    (hscen : ∀ s ∈ scenarios,
      exceptIsOk (run_financial_model irrFn (applyOverrides base s.2)) = true) :
    ∃ rows, scenario_comparison irrFn base scenarios = .ok rows ∧
      rows.length = scenarios.length + 1 ∧
      (∃ baseM, run_financial_model irrFn base = .ok baseM ∧
        rows.getD 0 emptyScenarioRow = scenarioRowOf "Base Case" baseM) ∧
      ∀ i, i < scenarios.length →
        ∃ m, run_financial_model irrFn
            (applyOverrides base (scenarios.getD i ("", [])).2) = .ok m ∧
          rows.getD (i + 1) emptyScenarioRow =
            scenarioRowOf (scenarios.getD i ("", [])).1 m := by
  cases hrun : run_financial_model irrFn base with
  | error e => rw [hrun] at hbase; exact Bool.noConfusion hbase
  | ok baseM =>
    have hmap : scenarios.mapM (fun s => do
          let metrics ← run_financial_model irrFn (applyOverrides base s.2)
          pure (scenarioRowOf s.1 metrics)) =
        Except.ok (scenarios.map (fun s => scenarioRowOf s.1
          (exceptOkD (run_financial_model irrFn (applyOverrides base s.2))
            emptyMetrics))) := by
      apply exceptMapM_ok
      intro s hs
      have hok := hscen s hs
      cases hr : run_financial_model irrFn (applyOverrides base s.2) with
      | error e => rw [hr] at hok; exact Bool.noConfusion hok
      | ok m => rfl
    have hcomp : scenario_comparison irrFn base scenarios =
        .ok (scenarioRowOf "Base Case" baseM ::
          scenarios.map (fun s => scenarioRowOf s.1
            (exceptOkD (run_financial_model irrFn (applyOverrides base s.2))
              emptyMetrics))) := by
      simp only [scenario_comparison]
      rw [hrun, hmap]
      rfl
    refine ⟨_, hcomp, by simp, ⟨baseM, rfl, rfl⟩, ?_⟩
    intro i hi
    have hs : scenarios.getD i ("", []) ∈ scenarios :=
      getD_mem_of_lt scenarios i ("", []) hi
    have hok := hscen (scenarios.getD i ("", [])) hs
    cases hr : run_financial_model irrFn
        (applyOverrides base (scenarios.getD i ("", [])).2) with
    | error e => rw [hr] at hok; exact Bool.noConfusion hok
    | ok m =>
      refine ⟨m, rfl, ?_⟩
      rw [List.getD_cons_succ, getD_map_of_lt _ ("", []) emptyScenarioRow
        scenarios i hi, hr]
      rfl

/-- Witness for C7: one concrete scenario overriding `opex_annual`. -/
theorem C7_scenario_comparison_witness :
    ∃ rows, scenario_comparison (fun _ => 0) exBase
        [("S", [("opex_annual", PyNum.float 1)])] = .ok rows ∧
      rows.length = [("S", [("opex_annual", PyNum.float 1)])].length + 1 ∧
      (∃ baseM, run_financial_model (fun _ => 0) exBase = .ok baseM ∧
        rows.getD 0 emptyScenarioRow = scenarioRowOf "Base Case" baseM) ∧
      ∀ i, i < [("S", [("opex_annual", PyNum.float 1)])].length →
        ∃ m, run_financial_model (fun _ => 0)
            (applyOverrides exBase
              ([("S", [("opex_annual", PyNum.float 1)])].getD
                i ("", [])).2) = .ok m ∧
          rows.getD (i + 1) emptyScenarioRow =
            scenarioRowOf
              ([("S", [("opex_annual", PyNum.float 1)])].getD i ("", [])).1
              m :=
  C7_scenario_comparison (fun _ => 0) exBase
    [("S", [("opex_annual", PyNum.float 1)])] rfl
    (fun s hs => by rw [List.mem_singleton] at hs; subst hs; rfl)

/-- C10: `scenario_comparison` never validates override names.  Writing an
unrecognised attribute is observationally the identity on the inputs, and a
scenario whose overrides are all unrecognised yields a row whose metric
columns coincide with the "Base Case" row, with no error raised — unlike
`sensitivity_analysis`, which fails on an unrecognised parameter name. -/
theorem C10_unvalidated_overrides :
    (∀ (inp : FinancialInputs) (nm : String) (v : PyNum),
        isDeclaredField nm = false → setAttr inp nm v = inp) ∧
    (∀ (irrFn : List ℚ → ℚ) (base : FinancialInputs) (sname : String)
        (mods : List (String × PyNum)),
      (∀ pv ∈ mods, isDeclaredField pv.1 = false) →
      exceptIsOk (run_financial_model irrFn base) = true →
      ∃ baseM, run_financial_model irrFn base = .ok baseM ∧
        scenario_comparison irrFn base [(sname, mods)] =
          .ok [scenarioRowOf "Base Case" baseM, scenarioRowOf sname baseM]) := by
  refine ⟨fun inp nm v h => setAttr_unknown inp nm v h, ?_⟩
  intro irrFn base sname mods hmods hok
  cases hrun : run_financial_model irrFn base with
  | error e => rw [hrun] at hok; exact Bool.noConfusion hok
  | ok baseM =>
    refine ⟨baseM, rfl, ?_⟩
    have hov : applyOverrides base mods = base :=
      applyOverrides_unknown base mods hmods
    have hmap : [(sname, mods)].mapM (fun s => do
          let metrics ← run_financial_model irrFn (applyOverrides base s.2)
          pure (scenarioRowOf s.1 metrics)) =
        Except.ok [scenarioRowOf sname baseM] := by
      have hall : ∀ x ∈ [(sname, mods)], (fun s => do
          let metrics ← run_financial_model irrFn (applyOverrides base s.2)
          pure (scenarioRowOf s.1 metrics)) x =
          Except.ok ((fun s => scenarioRowOf s.1 baseM) x) := by
        intro x hx
        rw [List.mem_singleton] at hx
        subst hx
        show (do
          let metrics ← run_financial_model irrFn (applyOverrides base mods)
          pure (scenarioRowOf sname metrics)) =
          Except.ok (scenarioRowOf sname baseM)
        rw [hov, hrun]
        rfl
      simpa using exceptMapM_ok _ (fun s => scenarioRowOf s.1 baseM)
        [(sname, mods)] hall
    simp only [scenario_comparison]
    rw [hrun, hmap]
    rfl

theorem linspace_length (a b : ℚ) (n : ℕ) : (linspace a b n).length = n := by
  rw [linspace]
  split_ifs with h0 h1
  · simp [h0]
  · simp [h1]
  · simp

theorem getD_range_of_lt (n i : ℕ) (hi : i < n) :
    (List.range n).getD i 0 = i := by
  rw [List.getD_eq_getElem?_getD, List.getElem?_range hi]
  rfl

theorem linspace_getD (a b : ℚ) (n : ℕ) (h2 : 2 ≤ n) (i : ℕ) (hi : i < n) :
    (linspace a b n).getD i 0 = a + (b - a) * i / ((n : ℚ) - 1) := by
  rw [linspace, if_neg (by omega), if_neg (by omega),
    getD_map_of_lt _ 0 0 (List.range n) i (by simpa using hi),
    getD_range_of_lt n i hi]

theorem linspace_mem_const (a : ℚ) (n : ℕ) :
    ∀ x ∈ linspace a a n, x = a := by
  intro x hx
  rw [linspace] at hx
  split_ifs at hx with h0 h1
  · exact absurd hx (List.not_mem_nil x)
  · simpa using hx
  · rcases List.mem_map.mp hx with ⟨i, _, rfl⟩
    simp

/-- `getattr` succeeds on every float-typed declared field. -/
theorem getAttr_float (inp : FinancialInputs) (p : String)
    (hp : p ∈ floatFields) : ∃ v, getAttr inp p = some v := by
  simp only [floatFields, List.mem_cons, List.not_mem_nil, or_false] at hp
  rcases hp with rfl | rfl | rfl | rfl | rfl | rfl | rfl | rfl | rfl <;>
    exact ⟨_, rfl⟩

/-- Overwriting a float field does not touch the lifetime field. -/
theorem setAttr_float_lifetime (inp : FinancialInputs) (p : String)
    (w : PyNum) (hp : p ∈ floatFields) :
    (setAttr inp p w).project_lifetime_years = inp.project_lifetime_years := by
  simp only [floatFields, List.mem_cons, List.not_mem_nil, or_false] at hp
  rcases hp with rfl | rfl | rfl | rfl | rfl | rfl | rfl | rfl | rfl <;> rfl

/-- Writing a float field's current value back is the identity. -/
theorem setAttr_self (inp : FinancialInputs) (p : String) (v : ℚ)
    (hp : p ∈ floatFields) (hv : getAttr inp p = some v) :
    setAttr inp p (.float v) = inp := by
  simp only [floatFields, List.mem_cons, List.not_mem_nil, or_false] at hp
  rcases hp with rfl | rfl | rfl | rfl | rfl | rfl | rfl | rfl | rfl
  · obtain rfl := Option.some.inj
      (show some inp.system_capacity_kw = some v from hv)
    rfl
  · obtain rfl := Option.some.inj (show some inp.total_capex = some v from hv)
    rfl
  · obtain rfl := Option.some.inj
      (show some inp.annual_production_kwh = some v from hv)
    rfl
  · obtain rfl := Option.some.inj
      (show some inp.electricity_rate_kwh = some v from hv)
    rfl
  · obtain rfl := Option.some.inj (show some inp.opex_annual = some v from hv)
    rfl
  · obtain rfl := Option.some.inj
      (show some inp.escalation_rate = some v from hv)
    rfl
  · obtain rfl := Option.some.inj
      (show some inp.discount_rate = some v from hv)
    rfl
  · obtain rfl := Option.some.inj
      (show some inp.incentives_total = some v from hv)
    rfl
  · obtain rfl := Option.some.inj
      (show some inp.degradation_rate = some v from hv)
    rfl

/-- `getattr` on an undeclared name raises `AttributeError` (returns `none`). -/
theorem getAttr_unknown (inp : FinancialInputs) (p : String)
    (h : isDeclaredField p = false) : getAttr inp p = none := by
  have hmem : p ∉ declaredFields := by simpa [isDeclaredField] using h
  simp only [declaredFields, List.mem_cons, List.not_mem_nil, or_false,
    not_or] at hmem
  obtain ⟨n1, n2, n3, n4, n5, n6, n7, n8, n9, n10⟩ := hmem
  rw [getAttr, if_neg n1, if_neg n2, if_neg n3, if_neg n4, if_neg n5,
    if_neg n6, if_neg n7, if_neg n8, if_neg n9, if_neg n10]

/-- C8 counterexample: `project_lifetime_years` IS a recognized field of
`FinancialInputs`, yet sweeping it fails — the swept value
`base_value * multiplier` is a `numpy` float, and `np.zeros(float + 1)`
raises `TypeError` — so the claim quantified over every recognized
parameter is false. -/
theorem C8_counterexample :
    isDeclaredField "project_lifetime_years" = true ∧
    sensitivity_analysis (fun _ => 0) exBase "project_lifetime_years"
      (1, 1) 1 = .error "TypeError: float array dimension" :=
  ⟨rfl, rfl⟩

/-- C8 (amended): for every float-valued recognized parameter (any declared
field except the `int`-typed `project_lifetime_years`, whose sweep fails with
a `TypeError`), `sensitivity_analysis` produces exactly `n` rows — one per
multiplier, the multipliers evenly spaced from `low` to `high` inclusive
(`n = 1` gives `[low]`, `n = 0` an empty table) — each row holding
`base_value * multiplier` and the orchestrator's npv, irr and payback for the
correspondingly modified inputs; with bounds `(1.0, 1.0)` every row carries
the base case's metrics; and the call fails if the parameter is not a
recognized field. -/
theorem C8_sensitivity_sweep :
    (∀ (irrFn : List ℚ → ℚ) (inputs : FinancialInputs) (L : ℤ) (p : String)
        (lo hi : ℚ) (n : ℕ),
      inputs.project_lifetime_years = .int L → 1 ≤ L → p ∈ floatFields →
      ∃ bv rows, getAttr inputs p = some bv ∧
        sensitivity_analysis irrFn inputs p (lo, hi) n = .ok rows ∧
        rows.length = n ∧
        (n = 1 → linspace lo hi n = [lo]) ∧
        (n = 0 → rows = []) ∧
        (1 ≤ n → (linspace lo hi n).getD 0 0 = lo) ∧
        (2 ≤ n → (linspace lo hi n).getD (n - 1) 0 = hi) ∧
        (∀ i, i + 1 < n →
          (linspace lo hi n).getD (i + 1) 0 - (linspace lo hi n).getD i 0 =
            (hi - lo) / ((n : ℚ) - 1)) ∧
        (∀ i, i < n →
          ∃ m, run_financial_model irrFn
              (setAttr inputs p (.float (bv * (linspace lo hi n).getD i 0))) =
                .ok m ∧
            rows.getD i emptySensRow =
              { parameter_value := bv * (linspace lo hi n).getD i 0,
                multiplier := (linspace lo hi n).getD i 0,
                npv := m.npv, irr := m.irr,
                payback_period := m.payback_period_years }) ∧
        (lo = 1 → hi = 1 → ∀ row ∈ rows,
          row = { parameter_value := bv, multiplier := 1,
                  npv := (modelMetrics irrFn inputs L).npv,
                  irr := (modelMetrics irrFn inputs L).irr,
                  payback_period :=
                    (modelMetrics irrFn inputs L).payback_period_years })) ∧
    (∀ (irrFn : List ℚ → ℚ) (inputs : FinancialInputs) (p : String)
        (lo hi : ℚ) (n : ℕ), isDeclaredField p = false →
      sensitivity_analysis irrFn inputs p (lo, hi) n =
        .error "AttributeError") := by
  constructor
  · intro irrFn inputs L p lo hi n hL h1 hp
    obtain ⟨bv, hget⟩ := getAttr_float inputs p hp
    have hLset : ∀ w : PyNum,
        (setAttr inputs p w).project_lifetime_years = PyNum.int L := by
      intro w
      rw [setAttr_float_lifetime inputs p w hp, hL]
    have hrun : ∀ q : ℚ, run_financial_model irrFn
        (setAttr inputs p (.float q)) =
        .ok (modelMetrics irrFn (setAttr inputs p (.float q)) L) :=
      fun q => run_ok_form irrFn _ L (hLset _) h1
    have hsens : sensitivity_analysis irrFn inputs p (lo, hi) n =
        .ok ((linspace lo hi n).map (fun mult =>
          { parameter_value := bv * mult, multiplier := mult,
            npv := (modelMetrics irrFn
              (setAttr inputs p (.float (bv * mult))) L).npv,
            irr := (modelMetrics irrFn
              (setAttr inputs p (.float (bv * mult))) L).irr,
            payback_period := (modelMetrics irrFn
              (setAttr inputs p (.float (bv * mult)))
                L).payback_period_years : SensRow })) := by
      simp only [sensitivity_analysis, hget]
      apply exceptMapM_ok
      intro mult _
      show (do
        let metrics ← run_financial_model irrFn
          (setAttr inputs p (.float (bv * mult)))
        pure { parameter_value := bv * mult, multiplier := mult,
               npv := metrics.npv, irr := metrics.irr,
               payback_period := metrics.payback_period_years : SensRow }) = _
      rw [hrun (bv * mult)]
      rfl
    refine ⟨bv, _, hget, hsens, ?_, ?_, ?_, ?_, ?_, ?_, ?_, ?_⟩
    · rw [List.length_map, linspace_length]
    · intro hn; subst hn; rfl
    · intro hn; subst hn; rfl
    · intro hn1
      rcases Nat.lt_or_ge n 2 with hn2 | hn2
      · have : n = 1 := by omega
        subst this
        rfl
      · rw [linspace_getD lo hi n hn2 0 (by omega)]
        simp
    · intro hn2
      rw [linspace_getD lo hi n hn2 (n - 1) (by omega)]
      have hcast : ((n - 1 : ℕ) : ℚ) = (n : ℚ) - 1 := by
        have : (1 : ℕ) ≤ n := by omega
        push_cast [this]
        ring
      rw [hcast]
      have hne : (n : ℚ) - 1 ≠ 0 := by
        have : (2 : ℚ) ≤ (n : ℚ) := by exact_mod_cast hn2
        intro hz
        nlinarith
      field_simp
    · intro i hilt
      have hn2 : 2 ≤ n := by omega
      rw [linspace_getD lo hi n hn2 (i + 1) (by omega),
        linspace_getD lo hi n hn2 i (by omega)]
      push_cast
      ring
    · intro i hilt
      refine ⟨modelMetrics irrFn
        (setAttr inputs p (.float (bv * (linspace lo hi n).getD i 0))) L,
        hrun _, ?_⟩
      rw [getD_map_of_lt _ 0 emptySensRow (linspace lo hi n) i
        (by rw [linspace_length]; exact hilt)]
    · intro hlo hhi row hrow
      subst hlo
      subst hhi
      rcases List.mem_map.mp hrow with ⟨mult, hmult, rfl⟩
      obtain rfl := linspace_mem_const 1 n mult hmult
      rw [mul_one, setAttr_self inputs p bv hp hget]
  · intro irrFn inputs p lo hi n h
    simp only [sensitivity_analysis, getAttr_unknown inputs p h]

/-- Witness for C8: sweep of `opex_annual` on `exBase` with a zero-width
range and two points, plus the unrecognized-name failure. -/
theorem C8_sensitivity_sweep_witness :
    (∃ bv rows, getAttr exBase "opex_annual" = some bv ∧
      sensitivity_analysis (fun _ => 0) exBase "opex_annual" (1, 1) 2 =
        .ok rows ∧
      rows.length = 2 ∧
      (2 = 1 → linspace 1 1 2 = [1]) ∧
      (2 = 0 → rows = []) ∧
      (1 ≤ 2 → (linspace 1 1 2).getD 0 0 = 1) ∧
      (2 ≤ 2 → (linspace 1 1 2).getD (2 - 1) 0 = 1) ∧
      (∀ i, i + 1 < 2 →
        (linspace 1 1 2).getD (i + 1) 0 - (linspace 1 1 2).getD i 0 =
          ((1 : ℚ) - 1) / (((2 : ℕ) : ℚ) - 1)) ∧
      (∀ i, i < 2 →
        ∃ m, run_financial_model (fun _ => 0)
            (setAttr exBase "opex_annual"
              (.float (bv * (linspace 1 1 2).getD i 0))) = .ok m ∧
          rows.getD i emptySensRow =
            { parameter_value := bv * (linspace 1 1 2).getD i 0,
              multiplier := (linspace 1 1 2).getD i 0,
              npv := m.npv, irr := m.irr,
              payback_period := m.payback_period_years }) ∧
      ((1 : ℚ) = 1 → (1 : ℚ) = 1 → ∀ row ∈ rows,
        row = { parameter_value := bv, multiplier := 1,
                npv := (modelMetrics (fun _ => 0) exBase 2).npv,
                irr := (modelMetrics (fun _ => 0) exBase 2).irr,
                payback_period :=
                  (modelMetrics (fun _ => 0) exBase
                    2).payback_period_years })) ∧
    sensitivity_analysis (fun _ => 0) exBase "bogus" (1, 1) 2 =
      .error "AttributeError" :=
  ⟨C8_sensitivity_sweep.1 (fun _ => 0) exBase 2 "opex_annual" 1 1 2 rfl
      (by decide) (by simp [floatFields]),
   C8_sensitivity_sweep.2 (fun _ => 0) exBase "bogus" 1 1 2 rfl⟩

/-- Witness for C10: an override under the unknown name "not_a_field". -/
theorem C10_unvalidated_overrides_witness :
    setAttr exBase "not_a_field" (PyNum.float 5) = exBase ∧
    ∃ baseM, run_financial_model (fun _ => 0) exBase = .ok baseM ∧
      scenario_comparison (fun _ => 0) exBase
        [("S", [("not_a_field", PyNum.float 5)])] =
        .ok [scenarioRowOf "Base Case" baseM, scenarioRowOf "S" baseM] :=
  ⟨C10_unvalidated_overrides.1 exBase "not_a_field" (PyNum.float 5) rfl,
   C10_unvalidated_overrides.2 (fun _ => 0) exBase "S"
     [("not_a_field", PyNum.float 5)]
     (fun pv hpv => by rw [List.mem_singleton] at hpv; subst hpv; rfl) rfl⟩
